import Mathlib

/-!
# Verification of the course-inventory reconciliation core

Shallow embedding of the reconciliation engine (`src/db/db_sync.py`),
the record normalizer (`prepare_data_types_for_orm`), and the bounded
retry / pagination logic (`src/inventory.py`), with theorems settling
the spec claims about them.
-/

/-- Scalar values that may appear in a record field (spec §3: string,
integer, timestamp, or null).  `vTimestamp` models `pd.Timestamp`,
`vDatetime` a Python `datetime.datetime` (the canonical instant form
produced by `Timestamp.to_pydatetime()`); `vNaN` models the float-NaN /
`pd.NaT` "missing" sentinels for which `pd.isnull` is true; `vNone` is
Python `None` (the mapping's null). -/
inductive Value where
  | vStr (s : String)
  | vInt (n : Int)
  | vTimestamp (t : Int)
  | vDatetime (t : Int)
  | vNaN
  | vNone
deriving DecidableEq, Repr

/-- A record is a Python dict: a mapping from field names to values. -/
def Record := List (String × Value)
deriving DecidableEq, Repr

/-- `record[key]` lookup on a dict (first binding wins, as in a dict). -/
def dictGet (key : String) (r : Record) : Option Value :=
  (List.lookup key r : Option Value)

/-- `isinstance(value, pd.Timestamp)`. -/
def isPdTimestamp : Value → Bool
  | .vTimestamp _ => true
  | _ => false

/-- `pd.Timestamp.to_pydatetime()`: converts the timestamp to a plain
`datetime` carrying the same instant; identity on anything else. -/
def toPydatetime : Value → Value
  | .vTimestamp t => .vDatetime t
  | v => v

/-- `pd.isnull(value)`: true for NaN/NaT sentinels and for `None`. -/
def pdIsnull : Value → Bool
  | .vNaN => true
  | .vNone => true
  | _ => false

/-- One iteration of the loop body of `prepare_data_types_for_orm`
(src/db/db_sync.py lines 23-27), acting on the value stored at one key:
`pd.Timestamp` values become `datetime`; values with `pd.isnull(value)`
and `value is not None` become `None`; everything else is untouched. -/
def prepareValue (value : Value) : Value :=
  if isPdTimestamp value then toPydatetime value
  else if pdIsnull value ∧ value ≠ Value.vNone then Value.vNone
  else value

/-- `prepare_data_types_for_orm` (src/db/db_sync.py lines 20-28): deep
copies the record, then rewrites the value at each key with the loop
body above, returning the new record. -/
def prepare_data_types_for_orm (record : Record) : Record :=
  (record : List (String × Value)).map (fun kv => (kv.1, prepareValue kv.2))

/-- Spec-side restatement of the normalizer contract (spec §4.2), for
comparison with the code: timestamp-typed values go to the canonical
instant representation, semantically missing sentinels go to the
mapping's null, an explicit null marker stays the null, and all other
values are returned unmodified. -/
def normalizeSpec : Value → Value
  | .vTimestamp t => .vDatetime t
  | .vNaN => .vNone
  | .vNone => .vNone
  | v => v

/-- Bulk store operations issued by the reconciler through the session
(store adapter): `bulk_update_mappings`, `bulk_insert_mappings`, and the
filtered bulk `delete` keyed by primary-key values. -/
inductive StoreOp where
  | bulkUpdate (records : List Record)
  | bulkInsert (records : List Record)
  | bulkDelete (pks : List Value)
deriving DecidableEq, Repr

/-- Python `set(xs) & set(ys)` rendered as a list: the distinct elements
of `xs` that also occur in `ys` (a Python set's iteration order is
unspecified; claims only use membership, for which this canonical order
is adequate). -/
def pySetInter (xs ys : List Value) : List Value :=
  xs.dedup.filter (fun v => v ∈ ys)

/-- Python `set(xs) - set(ys)` rendered as a list: the distinct elements
of `xs` that do not occur in `ys`. -/
def pySetDiff (xs ys : List Value) : List Value :=
  xs.dedup.filter (fun v => v ∉ ys)

/-- The state a `DBSync` instance holds after `__init__`
(src/db/db_sync.py lines 43-78): the prepared incoming records, their
primary-key values, the primary-key values of the persisted objects
queried from the session, and the identity-field name. -/
structure DBSync where
  model_pk_str : String
  new_records : List Record
  new_pk_values : List Value
  old_pk_values : List Value
deriving DecidableEq, Repr

/-- The list comprehension
`[new_record[self.model_pk_str] for new_record in self.new_records]`
(src/db/db_sync.py lines 64-66): indexes every record at the
primary-key name; a missing key raises KeyError in Python, modelled as
`none` for the whole comprehension. -/
def dictGetAll (pkStr : String) : List Record → Option (List Value)
  | [] => some []
  | r :: rest =>
    match dictGet pkStr r, dictGetAll pkStr rest with
    | some v, some vs => some (v :: vs)
    | _, _ => none

/-- `DBSync.__init__`: prepares each incoming record with
`prepare_data_types_for_orm`, extracts `new_pk_values` by indexing each
prepared record at the primary-key name, and snapshots `old_pk_values`
from the persisted objects returned by the session query (here passed
in as the persisted identity list). -/
def DBSync.init (records : List Record) (model_pk_str : String)
    (old_pk_values : List Value) : Option DBSync :=
  let new_records := records.map prepare_data_types_for_orm
  (dictGetAll model_pk_str new_records).map
    (fun new_pk_values => ⟨model_pk_str, new_records, new_pk_values, old_pk_values⟩)

/-- Membership test `new_record[self.model_pk_str] in pks` used by the
record-selection comprehensions (a missing key, impossible after a
successful `__init__`, selects nothing). -/
def pkMem (pkStr : String) (pks : List Value) (r : Record) : Bool :=
  match dictGet pkStr r with
  | some v => v ∈ pks
  | none => false

/-- `DBSync.update` (src/db/db_sync.py lines 82-110): intersect the old
and new primary-key sets, select the incoming records whose key is in
the intersection, and issue one `bulk_update_mappings` call when the
selection is non-empty, none otherwise.  The method mutates nothing on
`self`; its observable effect is the list of store calls it makes. -/
def DBSync.updateOps (s : DBSync) : List StoreOp :=
  let intersecting_pks := pySetInter s.old_pk_values s.new_pk_values
  let records_to_update := s.new_records.filter (pkMem s.model_pk_str intersecting_pks)
  if records_to_update.length = 0 then []
  else [StoreOp.bulkUpdate records_to_update]

/-- `DBSync.insert` (src/db/db_sync.py lines 112-138): new minus old
primary-key sets, select the matching incoming records, one
`bulk_insert_mappings` call when non-empty. -/
def DBSync.insertOps (s : DBSync) : List StoreOp :=
  let nonexistent_pks := pySetDiff s.new_pk_values s.old_pk_values
  let records_to_insert := s.new_records.filter (pkMem s.model_pk_str nonexistent_pks)
  if records_to_insert.length = 0 then []
  else [StoreOp.bulkInsert records_to_insert]

/-- `DBSync.delete` (src/db/db_sync.py lines 140-164): old minus new
primary-key sets, one filtered bulk delete with those key values when
non-empty. -/
def DBSync.deleteOps (s : DBSync) : List StoreOp :=
  let outdated_pks := pySetDiff s.old_pk_values s.new_pk_values
  if outdated_pks.length = 0 then []
  else [StoreOp.bulkDelete outdated_pks]

/-- `DBSync.sync` (src/db/db_sync.py lines 166-167):
`self.update().insert().delete()` — the three phases run in that fixed
order on the unchanged instance state, so the run's store-call trace is
the concatenation of the three phases' traces. -/
def DBSync.syncOps (s : DBSync) : List StoreOp :=
  s.updateOps ++ s.insertOps ++ s.deleteOps

/-- Modelled from the spec: the Store Adapter (spec §4.4) is an external
collaborator (a SQL database behind the ORM session), absent from src/.
Its effect on the persisted identity set, per the spec's contract:
`bulkUpdate` replaces field values of existing rows and leaves identity
membership unchanged; `bulkInsert` adds the inserted records'
identities; `bulkDelete` removes the given identities. -/
def applyStoreOp (pkStr : String) (store : List Value) : StoreOp → List Value
  | .bulkUpdate _ => store
  | .bulkInsert rs => store ++ rs.filterMap (dictGet pkStr)
  | .bulkDelete pks => store.filter (fun v => v ∉ pks)

/-- The persisted identity set after a sequence of bulk store calls. -/
def applyStoreOps (pkStr : String) (store : List Value) (ops : List StoreOp) : List Value :=
  ops.foldl (applyStoreOp pkStr) store

/-! ## Fetcher: `make_request_using_api_utils` (src/inventory.py 46-67) -/

/-- Outcome of one `API_UTIL.api_call` attempt as the loop body observes
it: a non-200 status code, a 200 whose body fails `json.loads`, or a
200 whose body parses to a list of records. -/
inductive ApiResponse where
  | badStatus (code : Nat)
  | badJson
  | ok (data : List Record)
deriving Repr

/-- Whether the loop body returns on this attempt (status 200 and the
body parses). -/
def ApiResponse.isOk : ApiResponse → Bool
  | .ok _ => true
  | _ => false

/-- The `for i in range(1, MAX_REQ_ATTEMPTS + 1)` loop over a concrete
list of per-attempt outcomes: returns the first parsed body and counts
the attempts made; if every attempt fails the loop falls through and
the function returns the sentinel `[{}]` (a list holding one empty
dict) after `MAX_REQ_ATTEMPTS` attempts. -/
def makeRequestFrom : List ApiResponse → Nat × List Record
  | [] => (0, [([] : List (String × Value))])
  | a :: rest =>
    match a with
    | .ok data => (1, data)
    | _ => ((makeRequestFrom rest).1 + 1, (makeRequestFrom rest).2)

/-- `make_request_using_api_utils` for one page request: the attempt
outcomes are a function of the attempt number (1-based), bounded by
`MAX_REQ_ATTEMPTS`.  Result: (number of attempts made, returned data). -/
def make_request_using_api_utils (responses : Nat → ApiResponse)
    (MAX_REQ_ATTEMPTS : Nat) : Nat × List Record :=
  makeRequestFrom ((List.range' 1 MAX_REQ_ATTEMPTS).map responses)

/-! ## Pagination: `gather_course_info_for_account` (src/inventory.py 84-109) -/

/-- A raw course dict as `slim_down_course_data` reads it: the five
fields the code indexes, plus whatever other source-defined fields the
API returned. -/
structure RawCourse where
  id : Value
  name : Value
  account_id : Value
  created_at : Value
  workflow_state : Value
  extra : List (String × Value)
deriving DecidableEq, Repr

/-- The slimmed dict built for one course (src/inventory.py 73-79). -/
structure SlimCourse where
  canvas_id : Value
  name : Value
  account_id : Value
  created_at : Value
  workflow_state : Value
deriving DecidableEq, Repr

/-- `slim_down_course_data` (src/inventory.py 70-81): keeps exactly the
five inventoried fields of every course dict, in order. -/
def slim_down_course_data (course_data : List RawCourse) : List SlimCourse :=
  course_data.map (fun c =>
    ⟨c.id, c.name, c.account_id, c.created_at, c.workflow_state⟩)

/-- The `while more_pages` loop of `gather_course_info_for_account`
(src/inventory.py 94-104).  `fetchPage p` is the record list the page-`p`
request returns (the code obtains it from
`make_request_using_api_utils` with `params['page'] = p`); `page` is the
current value of `params['page']`, which starts at 1 and is incremented
after each non-empty page; an empty page sets `more_pages = False`.
`fuel` bounds the recursion so the definition is total; every theorem
supplies fuel past the first empty page, where the loop has already
stopped. -/
def gatherCoursePages (fetchPage : Nat → List RawCourse) :
    Nat → Nat → List SlimCourse
  | _, 0 => []
  | page, fuel + 1 =>
    let all_course_data := fetchPage page
    if all_course_data.length > 0 then
      slim_down_course_data all_course_data ++
        gatherCoursePages fetchPage (page + 1) fuel
    else []

/-- `gather_course_info_for_account`'s accumulated `slim_course_dicts`:
the loop starting from page 1. -/
def gather_course_info_for_account (fetchPage : Nat → List RawCourse)
    (fuel : Nat) : List SlimCourse :=
  gatherCoursePages fetchPage 1 fuel

/-! ## Heap model for the deep copy in `prepare_data_types_for_orm` -/

/-- `prepare_data_types_for_orm` run against a heap of record objects
(Python object identity modelled as an index into the heap):
`copy.deepcopy(record)` allocates a fresh cell holding a copy of the
argument, the `for` loop's item assignments mutate that fresh cell
only, and the function returns the new cell's address.  Result: (heap
after the call, address of the returned record). -/
def prepareDataTypesHeap (heap : List Record) (addr : Nat) :
    List Record × Nat :=
  let record := heap.getD addr []
  let newAddr := heap.length
  let heap₁ := heap ++ [record]
  let heap₂ := heap₁.set newAddr
    ((record : List (String × Value)).map (fun kv => (kv.1, prepareValue kv.2)))
  (heap₂, newAddr)

/-! ## Helper lemmas -/

theorem prepareValue_eq_normalizeSpec (v : Value) :
    prepareValue v = normalizeSpec v := by
  cases v <;> simp [prepareValue, isPdTimestamp, pdIsnull, toPydatetime, normalizeSpec]

theorem mem_pySetInter {v : Value} {xs ys : List Value} :
    v ∈ pySetInter xs ys ↔ v ∈ xs ∧ v ∈ ys := by
  simp [pySetInter, List.mem_filter, List.mem_dedup]

theorem mem_pySetDiff {v : Value} {xs ys : List Value} :
    v ∈ pySetDiff xs ys ↔ v ∈ xs ∧ v ∉ ys := by
  simp [pySetDiff, List.mem_filter, List.mem_dedup]

theorem pkMem_iff {pkStr : String} {pks : List Value} {r : Record} :
    pkMem pkStr pks r = true ↔
      ∃ v, dictGet pkStr r = some v ∧ v ∈ pks := by
  unfold pkMem
  cases h : dictGet pkStr r <;> simp [h]

theorem DBSync.init_spec {records : List Record} {pkStr : String}
    {old_pk_values : List Value} {s : DBSync}
    (h : DBSync.init records pkStr old_pk_values = some s) :
    s.model_pk_str = pkStr ∧
    s.new_records = records.map prepare_data_types_for_orm ∧
    s.old_pk_values = old_pk_values ∧
    dictGetAll pkStr s.new_records = some s.new_pk_values := by
  unfold DBSync.init at h
  rw [Option.map_eq_some'] at h
  obtain ⟨pks, hpks, hs⟩ := h
  cases hs
  exact ⟨rfl, rfl, rfl, hpks⟩

theorem dictGetAll_cons {pkStr : String} {r : Record} {t : List Record}
    {pks : List Value} (h : dictGetAll pkStr (r :: t) = some pks) :
    ∃ v vs, dictGet pkStr r = some v ∧ dictGetAll pkStr t = some vs ∧
      pks = v :: vs := by
  unfold dictGetAll at h
  cases hv : dictGet pkStr r <;> rw [hv] at h
  · exact absurd h (by simp)
  · cases hvs : dictGetAll pkStr t <;> rw [hvs] at h
    · exact absurd h (by simp)
    · exact ⟨_, _, rfl, rfl, by injection h with h; exact h.symm⟩

theorem dictGetAll_mem {pkStr : String} :
    ∀ {l : List Record} {pks : List Value},
      dictGetAll pkStr l = some pks →
      (∀ r ∈ l, ∃ v, dictGet pkStr r = some v ∧ v ∈ pks) ∧
      (∀ v ∈ pks, ∃ r ∈ l, dictGet pkStr r = some v) := by
  intro l
  induction l with
  | nil =>
    intro pks h
    unfold dictGetAll at h
    injection h with h
    simp [← h]
  | cons r t ih =>
    intro pks h
    obtain ⟨v, vs, hv, hvs, hpks⟩ := dictGetAll_cons h
    obtain ⟨ihl, ihr⟩ := ih hvs
    subst hpks
    constructor
    · intro r' hr'
      rcases List.mem_cons.mp hr' with h1 | h2
      · exact ⟨v, h1 ▸ hv, List.mem_cons_self _ _⟩
      · obtain ⟨w, hw, hwmem⟩ := ihl r' h2
        exact ⟨w, hw, List.mem_cons_of_mem _ hwmem⟩
    · intro w hw
      rcases List.mem_cons.mp hw with h1 | h2
      · exact ⟨r, List.mem_cons_self _ _, h1 ▸ hv⟩
      · obtain ⟨r', hr', hget⟩ := ihr w h2
        exact ⟨r', List.mem_cons_of_mem _ hr', hget⟩

theorem dictGetAll_isSome {pkStr : String} :
    ∀ {l : List Record},
      (∀ r ∈ l, (dictGet pkStr r).isSome) →
      ∃ pks, dictGetAll pkStr l = some pks ∧ pks.length = l.length := by
  intro l
  induction l with
  | nil => intro _; exact ⟨[], rfl, rfl⟩
  | cons r t ih =>
    intro h
    obtain ⟨v, hv⟩ := Option.isSome_iff_exists.mp (h r (List.mem_cons_self _ _))
    obtain ⟨pks, hpks, hlen⟩ := ih (fun r' hr' => h r' (List.mem_cons_of_mem _ hr'))
    refine ⟨v :: pks, ?_, by simp [hlen]⟩
    unfold dictGetAll
    rw [hv, hpks]

theorem list_set_append {α : Type} (l : List α) (a x : α) :
    (l ++ [a]).set l.length x = l ++ [x] := by
  induction l with
  | nil => rfl
  | cons h t ih => simp [List.set, ih]

/-! ## Claim theorems -/

/-- C8 — Normalization: for every raw record,
`prepare_data_types_for_orm` converts each timestamp-typed field value
to the canonical instant representation (`to_pydatetime`), replaces
every semantically missing sentinel (NaN/NaT) with the mapping's null,
leaves an explicit null marker (`None`) unchanged, and returns every
other field value unmodified — i.e. it rewrites each field with exactly
the spec's `normalizeSpec` case analysis, keeping keys and order. -/
theorem c8_normalization (record : Record) :
    prepare_data_types_for_orm record =
      (record : List (String × Value)).map (fun kv => (kv.1, normalizeSpec kv.2)) := by
  unfold prepare_data_types_for_orm
  congr 1
  funext kv
  rw [prepareValue_eq_normalizeSpec]

/-- C5 — Partition completeness and disjointness: for every persisted
identity list O and incoming identity list N, the code's three
partitions satisfy `toUpdate ∪ toInsert = N`, `toUpdate ∪ toDelete = O`
(as identity sets), and the three partitions are pairwise disjoint,
where `toUpdate = pySetInter O N` (`old_set & new_set`),
`toInsert = pySetDiff N O` (`new_set - old_set`) and
`toDelete = pySetDiff O N` (`old_set - new_set`). -/
theorem c5_partition_algebra (old_pk_values new_pk_values : List Value) :
    ((pySetInter old_pk_values new_pk_values).toFinset ∪
        (pySetDiff new_pk_values old_pk_values).toFinset
      = new_pk_values.toFinset) ∧
    ((pySetInter old_pk_values new_pk_values).toFinset ∪
        (pySetDiff old_pk_values new_pk_values).toFinset
      = old_pk_values.toFinset) ∧
    Disjoint (pySetInter old_pk_values new_pk_values).toFinset
      (pySetDiff new_pk_values old_pk_values).toFinset ∧
    Disjoint (pySetInter old_pk_values new_pk_values).toFinset
      (pySetDiff old_pk_values new_pk_values).toFinset ∧
    Disjoint (pySetDiff new_pk_values old_pk_values).toFinset
      (pySetDiff old_pk_values new_pk_values).toFinset := by
  refine ⟨?_, ?_, ?_, ?_, ?_⟩
  · ext v
    simp only [Finset.mem_union, List.mem_toFinset, mem_pySetInter, mem_pySetDiff]
    tauto
  · ext v
    simp only [Finset.mem_union, List.mem_toFinset, mem_pySetInter, mem_pySetDiff]
    tauto
  · rw [Finset.disjoint_left]
    intro v hv hv'
    simp only [List.mem_toFinset, mem_pySetInter, mem_pySetDiff] at hv hv'
    tauto
  · rw [Finset.disjoint_left]
    intro v hv hv'
    simp only [List.mem_toFinset, mem_pySetInter, mem_pySetDiff] at hv hv'
    tauto
  · rw [Finset.disjoint_left]
    intro v hv hv'
    simp only [List.mem_toFinset, mem_pySetDiff] at hv hv'
    tauto

/-- C10 — Normalization is non-mutating: run against a heap of record
objects, `prepare_data_types_for_orm` returns a fresh record (an
address distinct from the input's), leaves every pre-existing heap cell
— in particular the input record — unchanged, and the fresh cell holds
the normalized copy. -/
theorem c10_prepare_non_mutating (heap : List Record) (addr : Nat)
    (h : addr < heap.length) :
    (prepareDataTypesHeap heap addr).2 ≠ addr ∧
    (∀ i, i < heap.length →
      (prepareDataTypesHeap heap addr).1.getD i [] = heap.getD i []) ∧
    (prepareDataTypesHeap heap addr).1.getD (prepareDataTypesHeap heap addr).2 [] =
      prepare_data_types_for_orm (heap.getD addr []) := by
  unfold prepareDataTypesHeap
  simp only [list_set_append]
  refine ⟨Nat.ne_of_gt h, ?_, ?_⟩
  · intro i hi
    exact List.getD_append _ _ _ _ hi
  · rw [List.getD_append_right _ _ _ _ (Nat.le_refl _)]
    simp [prepare_data_types_for_orm]

/-- Concrete one-cell heap used to witness C10. -/
def c10Heap : List Record :=
  [[("created_at", Value.vTimestamp 7), ("name", Value.vNaN)]]

/-- Witness for C10 at a concrete heap holding one record. -/
theorem c10_witness :
    0 < c10Heap.length ∧
    ((prepareDataTypesHeap c10Heap 0).2 ≠ 0 ∧
     (∀ i, i < c10Heap.length →
       (prepareDataTypesHeap c10Heap 0).1.getD i [] = c10Heap.getD i []) ∧
     (prepareDataTypesHeap c10Heap 0).1.getD (prepareDataTypesHeap c10Heap 0).2 [] =
       prepare_data_types_for_orm (c10Heap.getD 0 [])) :=
  ⟨by decide, c10_prepare_non_mutating c10Heap 0 (by decide)⟩

theorem mem_filter_pkMem {pkStr : String} {pks : List Value}
    {l : List Record} {r : Record} :
    r ∈ l.filter (pkMem pkStr pks) ↔
      r ∈ l ∧ ∃ v, dictGet pkStr r = some v ∧ v ∈ pks := by
  rw [List.mem_filter, pkMem_iff]

/-- C2 — Update phase: under a successful `__init__`, `update` issues
no store call at all exactly when the incoming and persisted identity
sets do not intersect, and otherwise issues one
`bulk_update_mappings` call whose payload is exactly the incoming
records whose identity value lies in both the incoming and persisted
identity sets. -/
theorem c2_update_phase {records : List Record} {pkStr : String}
    {old_pk_values : List Value} {s : DBSync}
    (h : DBSync.init records pkStr old_pk_values = some s) :
    (s.updateOps = [] ↔
      s.new_pk_values.toFinset ∩ s.old_pk_values.toFinset = ∅) ∧
    (s.updateOps ≠ [] →
      ∃ rs, s.updateOps = [StoreOp.bulkUpdate rs] ∧
        ∀ r : Record, r ∈ rs ↔ r ∈ s.new_records ∧
          ∃ v, dictGet pkStr r = some v ∧
            v ∈ s.new_pk_values ∧ v ∈ s.old_pk_values) := by
  obtain ⟨hpk, hnew, hold, hget⟩ := DBSync.init_spec h
  obtain ⟨hfwd, hbwd⟩ := dictGetAll_mem hget
  have hops : s.updateOps =
      if (s.new_records.filter
          (pkMem pkStr (pySetInter s.old_pk_values s.new_pk_values))).length = 0
      then []
      else [StoreOp.bulkUpdate (s.new_records.filter
          (pkMem pkStr (pySetInter s.old_pk_values s.new_pk_values)))] := by
    unfold DBSync.updateOps
    rw [hpk]
  have hsel : s.new_records.filter
      (pkMem pkStr (pySetInter s.old_pk_values s.new_pk_values)) = [] ↔
      s.new_pk_values.toFinset ∩ s.old_pk_values.toFinset = ∅ := by
    rw [List.eq_nil_iff_forall_not_mem, Finset.eq_empty_iff_forall_not_mem]
    constructor
    · intro hf v hv
      rw [Finset.mem_inter, List.mem_toFinset, List.mem_toFinset] at hv
      obtain ⟨r, hr, hget'⟩ := hbwd v hv.1
      exact hf r (mem_filter_pkMem.mpr
        ⟨hr, v, hget', mem_pySetInter.mpr ⟨hv.2, hv.1⟩⟩)
    · intro hi r hr
      obtain ⟨hrmem, v, hget', hvmem⟩ := mem_filter_pkMem.mp hr
      rw [mem_pySetInter] at hvmem
      exact hi v (Finset.mem_inter.mpr
        ⟨List.mem_toFinset.mpr hvmem.2, List.mem_toFinset.mpr hvmem.1⟩)
  by_cases hc : (s.new_records.filter
      (pkMem pkStr (pySetInter s.old_pk_values s.new_pk_values))) = []
  · have hops' : s.updateOps = [] := by
      rw [hops, if_pos (List.length_eq_zero.mpr hc)]
    refine ⟨?_, ?_⟩
    · rw [hops']
      simp only [true_iff]
      exact hsel.mp hc
    · intro hne
      exact absurd hops' hne
  · have hops' : s.updateOps = [StoreOp.bulkUpdate (s.new_records.filter
        (pkMem pkStr (pySetInter s.old_pk_values s.new_pk_values)))] := by
      rw [hops, if_neg (fun hl => hc (List.length_eq_zero.mp hl))]
    refine ⟨?_, ?_⟩
    · rw [hops']
      constructor
      · intro habs
        exact absurd habs (by simp)
      · intro habs
        exact absurd (hsel.mpr habs) hc
    · intro _
      refine ⟨_, hops', ?_⟩
      intro r
      rw [mem_filter_pkMem]
      constructor
      · rintro ⟨hr, v, hget', hvmem⟩
        rw [mem_pySetInter] at hvmem
        exact ⟨hr, v, hget', hvmem.2, hvmem.1⟩
      · rintro ⟨hr, v, hget', hvN, hvO⟩
        exact ⟨hr, v, hget', mem_pySetInter.mpr ⟨hvO, hvN⟩⟩

/-- C3 — Insert phase: under a successful `__init__`, `insert` issues
no store call at all exactly when the incoming-minus-persisted identity
difference is empty, and otherwise issues one `bulk_insert_mappings`
call whose payload is exactly the incoming records whose identity value
lies in the incoming identity set but not in the persisted one. -/
theorem c3_insert_phase {records : List Record} {pkStr : String}
    {old_pk_values : List Value} {s : DBSync}
    (h : DBSync.init records pkStr old_pk_values = some s) :
    (s.insertOps = [] ↔
      s.new_pk_values.toFinset \ s.old_pk_values.toFinset = ∅) ∧
    (s.insertOps ≠ [] →
      ∃ rs, s.insertOps = [StoreOp.bulkInsert rs] ∧
        ∀ r : Record, r ∈ rs ↔ r ∈ s.new_records ∧
          ∃ v, dictGet pkStr r = some v ∧
            v ∈ s.new_pk_values ∧ v ∉ s.old_pk_values) := by
  obtain ⟨hpk, hnew, hold, hget⟩ := DBSync.init_spec h
  obtain ⟨hfwd, hbwd⟩ := dictGetAll_mem hget
  have hops : s.insertOps =
      if (s.new_records.filter
          (pkMem pkStr (pySetDiff s.new_pk_values s.old_pk_values))).length = 0
      then []
      else [StoreOp.bulkInsert (s.new_records.filter
          (pkMem pkStr (pySetDiff s.new_pk_values s.old_pk_values)))] := by
    unfold DBSync.insertOps
    rw [hpk]
  have hsel : s.new_records.filter
      (pkMem pkStr (pySetDiff s.new_pk_values s.old_pk_values)) = [] ↔
      s.new_pk_values.toFinset \ s.old_pk_values.toFinset = ∅ := by
    rw [List.eq_nil_iff_forall_not_mem, Finset.eq_empty_iff_forall_not_mem]
    constructor
    · intro hf v hv
      rw [Finset.mem_sdiff, List.mem_toFinset, List.mem_toFinset] at hv
      obtain ⟨r, hr, hget'⟩ := hbwd v hv.1
      exact hf r (mem_filter_pkMem.mpr
        ⟨hr, v, hget', mem_pySetDiff.mpr ⟨hv.1, hv.2⟩⟩)
    · intro hi r hr
      obtain ⟨hrmem, v, hget', hvmem⟩ := mem_filter_pkMem.mp hr
      rw [mem_pySetDiff] at hvmem
      exact hi v (Finset.mem_sdiff.mpr
        ⟨List.mem_toFinset.mpr hvmem.1, fun hv => hvmem.2 (List.mem_toFinset.mp hv)⟩)
  by_cases hc : (s.new_records.filter
      (pkMem pkStr (pySetDiff s.new_pk_values s.old_pk_values))) = []
  · have hops' : s.insertOps = [] := by
      rw [hops, if_pos (List.length_eq_zero.mpr hc)]
    refine ⟨?_, ?_⟩
    · rw [hops']
      simp only [true_iff]
      exact hsel.mp hc
    · intro hne
      exact absurd hops' hne
  · have hops' : s.insertOps = [StoreOp.bulkInsert (s.new_records.filter
        (pkMem pkStr (pySetDiff s.new_pk_values s.old_pk_values)))] := by
      rw [hops, if_neg (fun hl => hc (List.length_eq_zero.mp hl))]
    refine ⟨?_, ?_⟩
    · rw [hops']
      constructor
      · intro habs
        exact absurd habs (by simp)
      · intro habs
        exact absurd (hsel.mpr habs) hc
    · intro _
      refine ⟨_, hops', ?_⟩
      intro r
      rw [mem_filter_pkMem]
      constructor
      · rintro ⟨hr, v, hget', hvmem⟩
        rw [mem_pySetDiff] at hvmem
        exact ⟨hr, v, hget', hvmem.1, hvmem.2⟩
      · rintro ⟨hr, v, hget', hvN, hvO⟩
        exact ⟨hr, v, hget', mem_pySetDiff.mpr ⟨hvN, hvO⟩⟩

/-- C4 — Delete phase and phase order: under a successful `__init__`,
the full run's store-call trace is the update trace followed by the
insert trace followed by the delete trace (strictly in that order);
`delete` computes persisted-minus-incoming from the `old_pk_values`
snapshot taken at construction (the `__init__` parameter itself, never
re-queried), issues no store call when that difference is empty, and
otherwise issues one bulk delete carrying exactly that identity
difference. -/
theorem c4_delete_phase {records : List Record} {pkStr : String}
    {old_pk_values : List Value} {s : DBSync}
    (h : DBSync.init records pkStr old_pk_values = some s) :
    s.syncOps = s.updateOps ++ s.insertOps ++ s.deleteOps ∧
    (s.deleteOps = [] ↔
      old_pk_values.toFinset \ s.new_pk_values.toFinset = ∅) ∧
    (s.deleteOps ≠ [] →
      ∃ pks, s.deleteOps = [StoreOp.bulkDelete pks] ∧
        pks.toFinset = old_pk_values.toFinset \ s.new_pk_values.toFinset) := by
  obtain ⟨hpk, hnew, hold, hget⟩ := DBSync.init_spec h
  have hops : s.deleteOps =
      if (pySetDiff old_pk_values s.new_pk_values).length = 0 then []
      else [StoreOp.bulkDelete (pySetDiff old_pk_values s.new_pk_values)] := by
    unfold DBSync.deleteOps
    rw [hold]
  have hsel : pySetDiff old_pk_values s.new_pk_values = [] ↔
      old_pk_values.toFinset \ s.new_pk_values.toFinset = ∅ := by
    rw [List.eq_nil_iff_forall_not_mem, Finset.eq_empty_iff_forall_not_mem]
    constructor
    · intro hf v hv
      rw [Finset.mem_sdiff, List.mem_toFinset, List.mem_toFinset] at hv
      exact hf v (mem_pySetDiff.mpr hv)
    · intro hi v hv
      rw [mem_pySetDiff] at hv
      exact hi v (Finset.mem_sdiff.mpr
        ⟨List.mem_toFinset.mpr hv.1, fun hm => hv.2 (List.mem_toFinset.mp hm)⟩)
  refine ⟨rfl, ?_, ?_⟩
  · by_cases hc : pySetDiff old_pk_values s.new_pk_values = []
    · rw [hops, if_pos (List.length_eq_zero.mpr hc)]
      simp only [true_iff]
      exact hsel.mp hc
    · rw [hops, if_neg (fun hl => hc (List.length_eq_zero.mp hl))]
      constructor
      · intro habs
        exact absurd habs (by simp)
      · intro habs
        exact absurd (hsel.mpr habs) hc
  · intro hne
    by_cases hc : pySetDiff old_pk_values s.new_pk_values = []
    · rw [hops, if_pos (List.length_eq_zero.mpr hc)] at hne
      exact absurd rfl hne
    · refine ⟨pySetDiff old_pk_values s.new_pk_values, ?_, ?_⟩
      · rw [hops, if_neg (fun hl => hc (List.length_eq_zero.mp hl))]
      · ext v
        simp only [List.mem_toFinset, Finset.mem_sdiff, mem_pySetDiff]

theorem applyStoreOps_append (pkStr : String) (st : List Value)
    (ops₁ ops₂ : List StoreOp) :
    applyStoreOps pkStr st (ops₁ ++ ops₂) =
      applyStoreOps pkStr (applyStoreOps pkStr st ops₁) ops₂ := by
  unfold applyStoreOps
  rw [List.foldl_append]

theorem updateOps_store_noop (pkStr : String) (st : List Value) (s : DBSync) :
    applyStoreOps pkStr st s.updateOps = st := by
  have hops : s.updateOps =
      if (s.new_records.filter (pkMem s.model_pk_str
          (pySetInter s.old_pk_values s.new_pk_values))).length = 0
      then []
      else [StoreOp.bulkUpdate (s.new_records.filter (pkMem s.model_pk_str
          (pySetInter s.old_pk_values s.new_pk_values)))] := rfl
  rw [hops]
  split
  · rfl
  · rfl

theorem insertOps_store_mem {records : List Record} {pkStr : String}
    {old_pk_values : List Value} {s : DBSync}
    (h : DBSync.init records pkStr old_pk_values = some s)
    (st : List Value) (v : Value) :
    v ∈ applyStoreOps pkStr st s.insertOps ↔
      v ∈ st ∨ (v ∈ s.new_pk_values ∧ v ∉ s.old_pk_values) := by
  obtain ⟨hpk, hnew, hold, hget⟩ := DBSync.init_spec h
  obtain ⟨hfwd, hbwd⟩ := dictGetAll_mem hget
  have hops : s.insertOps =
      if (s.new_records.filter (pkMem pkStr
          (pySetDiff s.new_pk_values s.old_pk_values))).length = 0
      then []
      else [StoreOp.bulkInsert (s.new_records.filter (pkMem pkStr
          (pySetDiff s.new_pk_values s.old_pk_values)))] := by
    unfold DBSync.insertOps
    rw [hpk]
  by_cases hc : s.new_records.filter
      (pkMem pkStr (pySetDiff s.new_pk_values s.old_pk_values)) = []
  · rw [hops, if_pos (List.length_eq_zero.mpr hc)]
    show v ∈ st ↔ _
    constructor
    · exact Or.inl
    · rintro (hst | ⟨hN, hO⟩)
      · exact hst
      · exfalso
        obtain ⟨r, hr, hget'⟩ := hbwd v hN
        have hmem : r ∈ s.new_records.filter
            (pkMem pkStr (pySetDiff s.new_pk_values s.old_pk_values)) :=
          mem_filter_pkMem.mpr ⟨hr, v, hget', mem_pySetDiff.mpr ⟨hN, hO⟩⟩
        rw [hc] at hmem
        exact absurd hmem (List.not_mem_nil r)
  · rw [hops, if_neg (fun hl => hc (List.length_eq_zero.mp hl))]
    show v ∈ applyStoreOp pkStr st (StoreOp.bulkInsert _) ↔ _
    unfold applyStoreOp
    rw [List.mem_append]
    have hfm : v ∈ (s.new_records.filter (pkMem pkStr
        (pySetDiff s.new_pk_values s.old_pk_values))).filterMap (dictGet pkStr) ↔
        v ∈ s.new_pk_values ∧ v ∉ s.old_pk_values := by
      rw [List.mem_filterMap]
      constructor
      · rintro ⟨r, hr, hget'⟩
        obtain ⟨hrmem, w, hw, hwmem⟩ := mem_filter_pkMem.mp hr
        rw [hget'] at hw
        injection hw with hw
        rw [← hw] at hwmem
        exact mem_pySetDiff.mp hwmem
      · rintro ⟨hN, hO⟩
        obtain ⟨r, hr, hget'⟩ := hbwd v hN
        exact ⟨r, mem_filter_pkMem.mpr
          ⟨hr, v, hget', mem_pySetDiff.mpr ⟨hN, hO⟩⟩, hget'⟩
    rw [hfm]

theorem deleteOps_store_mem (s : DBSync) (pkStr : String)
    (st : List Value) (v : Value) :
    v ∈ applyStoreOps pkStr st s.deleteOps ↔
      v ∈ st ∧ ¬(v ∈ s.old_pk_values ∧ v ∉ s.new_pk_values) := by
  have hops : s.deleteOps =
      if (pySetDiff s.old_pk_values s.new_pk_values).length = 0 then []
      else [StoreOp.bulkDelete (pySetDiff s.old_pk_values s.new_pk_values)] := rfl
  by_cases hc : pySetDiff s.old_pk_values s.new_pk_values = []
  · rw [hops, if_pos (List.length_eq_zero.mpr hc)]
    show v ∈ st ↔ _
    constructor
    · intro hst
      refine ⟨hst, ?_⟩
      intro hv
      have hmem : v ∈ pySetDiff s.old_pk_values s.new_pk_values :=
        mem_pySetDiff.mpr hv
      rw [hc] at hmem
      exact absurd hmem (List.not_mem_nil v)
    · exact And.left
  · rw [hops, if_neg (fun hl => hc (List.length_eq_zero.mp hl))]
    show v ∈ applyStoreOp pkStr st (StoreOp.bulkDelete _) ↔ _
    unfold applyStoreOp
    rw [List.mem_filter]
    simp only [decide_eq_true_eq, mem_pySetDiff]

/-- C1 — Mirror invariant: for every incoming record set and persisted
identity snapshot, after a successful run of the full reconciliation
(`sync` = update, insert, delete, with the store applying each bulk
call and nothing else mutating it), the persisted identity set equals
the incoming identity set exactly. -/
theorem c1_mirror_invariant {records : List Record} {pkStr : String}
    {old_pk_values : List Value} {s : DBSync}
    (h : DBSync.init records pkStr old_pk_values = some s) :
    (applyStoreOps pkStr old_pk_values s.syncOps).toFinset =
      s.new_pk_values.toFinset := by
  obtain ⟨hpk, hnew, hold, hget⟩ := DBSync.init_spec h
  ext v
  rw [List.mem_toFinset, List.mem_toFinset]
  unfold DBSync.syncOps
  rw [applyStoreOps_append, applyStoreOps_append, updateOps_store_noop,
    deleteOps_store_mem, insertOps_store_mem h, hold]
  tauto

/-- Two incoming records sharing the identity value 7 (spec §8's
duplicate-identity scenario). -/
def dupRecordA : Record := [("id", Value.vInt 7), ("name", Value.vStr "alpha")]

/-- Second record with the same identity value 7. -/
def dupRecordB : Record := [("id", Value.vInt 7), ("name", Value.vStr "beta")]

/-- The duplicate-identity incoming set. -/
def dupRecords : List Record := [dupRecordA, dupRecordB]

/-- The `DBSync` state `__init__` builds from `dupRecords` against an
empty persisted set: both identity values are kept, no duplicate check
runs. -/
def dupSync : DBSync :=
  ⟨"id", dupRecords, [Value.vInt 7, Value.vInt 7], []⟩

/-- C6 counterexample: an incoming set holding two records with
identity 7, reconciled against an empty persisted set, is not rejected:
construction succeeds (the code has no duplicate-identity check and no
`DuplicateIdentity` failure path) and the run performs a store call —
one bulk insert carrying both duplicate records — rather than zero
store calls. -/
theorem c6_counterexample :
    DBSync.init dupRecords "id" [] = some dupSync ∧
    dupSync.syncOps = [StoreOp.bulkInsert [dupRecordA, dupRecordB]] ∧
    dupSync.syncOps ≠ [] := by
  refine ⟨by decide, by decide, by decide⟩

/-- C6 amended — no duplicate-identity rejection exists: for every
incoming record set whose records all carry the identity key (duplicate
identity values included), `__init__` succeeds and keeps one identity
entry per record (duplicates are not deduplicated or reported), so
reconciliation proceeds through the normal three phases instead of
failing with `DuplicateIdentity`. -/
theorem c6_no_duplicate_check (records : List Record) (pkStr : String)
    (old_pk_values : List Value)
    (hkeys : ∀ r ∈ records,
      (dictGet pkStr (prepare_data_types_for_orm r)).isSome) :
    ∃ s, DBSync.init records pkStr old_pk_values = some s ∧
      s.new_pk_values.length = records.length := by
  have hkeys' : ∀ r' ∈ records.map prepare_data_types_for_orm,
      (dictGet pkStr r').isSome := by
    intro r' hr'
    obtain ⟨r, hr, hre⟩ := List.mem_map.mp hr'
    exact hre ▸ hkeys r hr
  obtain ⟨pks, hpks, hlen⟩ := dictGetAll_isSome hkeys'
  refine ⟨⟨pkStr, records.map prepare_data_types_for_orm, pks, old_pk_values⟩,
    ?_, ?_⟩
  · unfold DBSync.init
    simp only [hpks, Option.map_some']
  · rw [hlen, List.length_map]

/-- Witness for the amended C6 at the duplicate-identity input. -/
theorem c6_witness :
    (∀ r ∈ dupRecords,
      (dictGet "id" (prepare_data_types_for_orm r)).isSome) ∧
    ∃ s, DBSync.init dupRecords "id" [] = some s ∧
      s.new_pk_values.length = dupRecords.length :=
  ⟨by decide, c6_no_duplicate_check dupRecords "id" [] (by decide)⟩

theorem makeRequestFrom_le (l : List ApiResponse) :
    (makeRequestFrom l).1 ≤ l.length := by
  induction l with
  | nil => exact Nat.le_refl 0
  | cons a t ih =>
    unfold makeRequestFrom
    cases a
    · exact Nat.succ_le_succ ih
    · exact Nat.succ_le_succ ih
    · exact Nat.succ_le_succ (Nat.zero_le _)

theorem makeRequestFrom_allFail {l : List ApiResponse}
    (h : ∀ a ∈ l, a.isOk = false) :
    makeRequestFrom l = (l.length, [([] : List (String × Value))]) := by
  induction l with
  | nil => rfl
  | cons a t ih =>
    have ha := h a (List.mem_cons_self _ _)
    have ht := ih (fun x hx => h x (List.mem_cons_of_mem _ hx))
    unfold makeRequestFrom
    cases a
    · rw [ht]
      rfl
    · rw [ht]
      rfl
    · exact absurd ha (by simp [ApiResponse.isOk])

/-- C7 amended — retry exhaustion without a failure signal: for every
page request the fetcher makes at most `MAX_REQ_ATTEMPTS` attempts; and
when every attempt fails (non-200 status or unparseable body) it makes
exactly `MAX_REQ_ATTEMPTS` attempts and then returns normally with the
sentinel list `[{}]` — one empty record — instead of raising an error
and aborting the overall operation. -/
theorem c7_retry_exhaustion (responses : Nat → ApiResponse)
    (MAX_REQ_ATTEMPTS : Nat)
    (hfail : ∀ i, 1 ≤ i → i ≤ MAX_REQ_ATTEMPTS →
      (responses i).isOk = false) :
    (∀ resp : Nat → ApiResponse,
      (make_request_using_api_utils resp MAX_REQ_ATTEMPTS).1 ≤
        MAX_REQ_ATTEMPTS) ∧
    make_request_using_api_utils responses MAX_REQ_ATTEMPTS =
      (MAX_REQ_ATTEMPTS, [([] : List (String × Value))]) := by
  constructor
  · intro resp
    have hle := makeRequestFrom_le ((List.range' 1 MAX_REQ_ATTEMPTS).map resp)
    rw [List.length_map, List.length_range'] at hle
    exact hle
  · have hall : ∀ a ∈ (List.range' 1 MAX_REQ_ATTEMPTS).map responses,
        a.isOk = false := by
      intro a ha
      obtain ⟨i, hi, he⟩ := List.mem_map.mp ha
      rw [List.mem_range'_1] at hi
      exact he ▸ hfail i hi.1 (by omega)
    rw [make_request_using_api_utils, makeRequestFrom_allFail hall,
      List.length_map, List.length_range']

/-- An attempt stub that fails every attempt (HTTP 503). -/
def allFailResponses : Nat → ApiResponse := fun _ => ApiResponse.badStatus 503

/-- C7 counterexample: with every attempt for the page failing and
`MAX_REQ_ATTEMPTS = 3`, the fetcher makes exactly 3 attempts but then
does not fail or abort: it returns normally with the sentinel `[{}]`, a
record list of positive length that the pagination caller's
`len(all_course_data) > 0` test treats as a data page, not as a
`SourceUnavailable` failure. -/
theorem c7_counterexample :
    make_request_using_api_utils allFailResponses 3 =
      (3, [([] : List (String × Value))]) ∧
    0 < (make_request_using_api_utils allFailResponses 3).2.length := by
  refine ⟨by decide, by decide⟩

/-- Witness for the amended C7 at the all-fail stub with 3 attempts. -/
theorem c7_witness :
    (∀ i, 1 ≤ i → i ≤ 3 → (allFailResponses i).isOk = false) ∧
    ((∀ resp : Nat → ApiResponse,
        (make_request_using_api_utils resp 3).1 ≤ 3) ∧
      make_request_using_api_utils allFailResponses 3 =
        (3, [([] : List (String × Value))])) :=
  ⟨fun _ _ _ => rfl, c7_retry_exhaustion allFailResponses 3 (fun _ _ _ => rfl)⟩

theorem gatherCoursePages_spec (fetchPage : Nat → List RawCourse) (k : Nat)
    (hempty : fetchPage k = []) :
    ∀ fuel p, p ≤ k → k - p < fuel →
      (∀ i, p ≤ i → i < k → fetchPage i ≠ []) →
      gatherCoursePages fetchPage p fuel =
        ((List.range' p (k - p)).map
          (fun i => slim_down_course_data (fetchPage i))).flatten := by
  intro fuel
  induction fuel with
  | zero =>
    intro p _ hlt _
    exact absurd hlt (Nat.not_lt_zero _)
  | succ fuel ih =>
    intro p hp hlt hne
    by_cases hpk : p = k
    · subst hpk
      unfold gatherCoursePages
      rw [hempty]
      simp
    · have hplt : p < k := Nat.lt_of_le_of_ne hp hpk
      have hfp : fetchPage p ≠ [] := hne p (Nat.le_refl p) hplt
      have hlen : (fetchPage p).length > 0 :=
        List.length_pos.mpr hfp
      unfold gatherCoursePages
      rw [if_pos hlen]
      have hkp : k - p = (k - (p + 1)) + 1 := by omega
      rw [hkp, List.range'_succ, List.map_cons, List.flatten_cons]
      congr 1
      exact ih (p + 1) hplt (by omega) (fun i hi1 hi2 => hne i (by omega) hi2)

/-- C9 — Pagination termination: when the page sequence has its first
empty page at page `k` (pages 1 to `k − 1` non-empty, page `k` empty),
the `while more_pages` loop of `gather_course_info_for_account`
requests consecutive page numbers starting at 1, stops at that first
empty page, and accumulates exactly the slimmed records of pages
1 … `k − 1` in order — independently of the fuel bound, i.e. the loop
terminates there. -/
theorem c9_pagination_termination (fetchPage : Nat → List RawCourse)
    (k fuel : Nat) (hk : 1 ≤ k) (hfuel : k ≤ fuel)
    (hempty : fetchPage k = [])
    (hne : ∀ i, 1 ≤ i → i < k → fetchPage i ≠ []) :
    gather_course_info_for_account fetchPage fuel =
      ((List.range' 1 (k - 1)).map
        (fun i => slim_down_course_data (fetchPage i))).flatten :=
  gatherCoursePages_spec fetchPage k hempty fuel 1 hk (by omega) hne

/-- A page stub returning 3 non-empty pages and then an empty page. -/
def stubPages : Nat → List RawCourse := fun p =>
  if p ≤ 3 then
    [⟨Value.vInt (p : Int), Value.vStr "course", Value.vInt 1,
      Value.vNone, Value.vStr "available", []⟩]
  else []

/-- Witness for C9 at the 3-pages-then-empty stub. -/
theorem c9_witness :
    (1 ≤ 4 ∧ 4 ≤ 10 ∧ stubPages 4 = [] ∧
      (∀ i, 1 ≤ i → i < 4 → stubPages i ≠ [])) ∧
    gather_course_info_for_account stubPages 10 =
      ((List.range' 1 (4 - 1)).map
        (fun i => slim_down_course_data (stubPages i))).flatten :=
  ⟨⟨by decide, by decide, by decide,
      by intro i h1 h2; interval_cases i <;> decide⟩,
    c9_pagination_termination stubPages 4 10 (by decide) (by decide)
      (by decide) (by intro i h1 h2; interval_cases i <;> decide)⟩

/-- The spec §8 mixed scenario's incoming set: identities {2, 4, 5}. -/
def mixedRecords : List Record :=
  [[("id", Value.vInt 2), ("name", Value.vStr "two")],
   [("id", Value.vInt 4), ("name", Value.vStr "four")],
   [("id", Value.vInt 5), ("name", Value.vStr "five")]]

/-- The spec §8 mixed scenario's persisted identities: {1, 2, 3}. -/
def mixedOld : List Value := [Value.vInt 1, Value.vInt 2, Value.vInt 3]

/-- The `DBSync` state `__init__` builds in the mixed scenario. -/
def mixedSync : DBSync :=
  ⟨"id", mixedRecords, [Value.vInt 2, Value.vInt 4, Value.vInt 5], mixedOld⟩

/-- Witness for C1 at the mixed scenario (persisted {1,2,3}, incoming
{2,4,5}). -/
theorem c1_witness :
    DBSync.init mixedRecords "id" mixedOld = some mixedSync ∧
    (applyStoreOps "id" mixedOld mixedSync.syncOps).toFinset =
      mixedSync.new_pk_values.toFinset :=
  ⟨by decide, c1_mirror_invariant
    (show DBSync.init mixedRecords "id" mixedOld = some mixedSync by decide)⟩

/-- Witness for C2 at the mixed scenario. -/
theorem c2_witness :
    DBSync.init mixedRecords "id" mixedOld = some mixedSync ∧
    ((mixedSync.updateOps = [] ↔
        mixedSync.new_pk_values.toFinset ∩ mixedSync.old_pk_values.toFinset = ∅) ∧
     (mixedSync.updateOps ≠ [] →
       ∃ rs, mixedSync.updateOps = [StoreOp.bulkUpdate rs] ∧
         ∀ r : Record, r ∈ rs ↔ r ∈ mixedSync.new_records ∧
           ∃ v, dictGet "id" r = some v ∧
             v ∈ mixedSync.new_pk_values ∧ v ∈ mixedSync.old_pk_values)) :=
  ⟨by decide, c2_update_phase
    (show DBSync.init mixedRecords "id" mixedOld = some mixedSync by decide)⟩

/-- Witness for C3 at the mixed scenario. -/
theorem c3_witness :
    DBSync.init mixedRecords "id" mixedOld = some mixedSync ∧
    ((mixedSync.insertOps = [] ↔
        mixedSync.new_pk_values.toFinset \ mixedSync.old_pk_values.toFinset = ∅) ∧
     (mixedSync.insertOps ≠ [] →
       ∃ rs, mixedSync.insertOps = [StoreOp.bulkInsert rs] ∧
         ∀ r : Record, r ∈ rs ↔ r ∈ mixedSync.new_records ∧
           ∃ v, dictGet "id" r = some v ∧
             v ∈ mixedSync.new_pk_values ∧ v ∉ mixedSync.old_pk_values)) :=
  ⟨by decide, c3_insert_phase
    (show DBSync.init mixedRecords "id" mixedOld = some mixedSync by decide)⟩

/-- Witness for C4 at the mixed scenario. -/
theorem c4_witness :
    DBSync.init mixedRecords "id" mixedOld = some mixedSync ∧
    (mixedSync.syncOps =
        mixedSync.updateOps ++ mixedSync.insertOps ++ mixedSync.deleteOps ∧
     (mixedSync.deleteOps = [] ↔
        mixedOld.toFinset \ mixedSync.new_pk_values.toFinset = ∅) ∧
     (mixedSync.deleteOps ≠ [] →
       ∃ pks, mixedSync.deleteOps = [StoreOp.bulkDelete pks] ∧
         pks.toFinset = mixedOld.toFinset \ mixedSync.new_pk_values.toFinset)) :=
  ⟨by decide, c4_delete_phase
    (show DBSync.init mixedRecords "id" mixedOld = some mixedSync by decide)⟩
